import Mathlib

/-!
Shallow embedding of the zwd1208/logging package.

The Go sources are the leveled Logger front end (LEVEL constants, Logger,
StdHandler) and filehandler.go (FileHandler and SizeRotatingFileHandler).
I/O is modelled explicitly: an Action trace records the file-system calls a
method performs, a World record supplies the outcome of each fallible OS
call, and an Outcome distinguishes a normal return from a forever-blocking
lock acquisition (deadlock) and from a nil-pointer dereference (crash).

Lock discipline: every entry point of the package calls rotateOnce with
fileLock free, and rotateOnce holds the write lock until it returns
(acquired at its top, released by defer).  The only lock operation that can
occur while the write lock is held is the fileLock.RLock performed by
SizeRotatingFileHandler.Log when rotateOnce calls it on a stat failure;
this RLock blocks until the write lock is released, which never happens, so
it is modelled as a deadlock outcome.
-/

namespace Logging

/-- Size constants from the source: KB = 1 <<< 10. -/
def KB : Int := 1024

/-- MB = 1 <<< 20. -/
def MB : Int := 1048576

/-- GB = 1 <<< 30. -/
def GB : Int := 1073741824

/-- TB = 1 <<< 40. -/
def TB : Int := 1099511627776

/-- LEVEL is a byte in the source; its values are DEBUG = 0 .. FATAL = 4.
Only order comparisons are performed on it, so it is modelled as Nat. -/
def DEBUG : Nat := 0

/-- LEVEL value INFO. -/
def INFO : Nat := 1

/-- LEVEL value WARNING. -/
def WARNING : Nat := 2

/-- LEVEL value ERROR. -/
def ERROR : Nat := 3

/-- LEVEL value FATAL. -/
def FATAL : Nat := 4

/-- Logger from the source.  SetLevel never inspects the handler list, so
handlers are reduced to opaque identifiers. -/
structure Logger where
  logLevel : Nat
  handlers : List Nat
deriving DecidableEq

/-- Logger.SetLevel from the source: the level is assigned only while the
current level is strictly below FATAL. -/
def Logger.SetLevel (l : Logger) (level : Nat) : Logger :=
  if l.logLevel < FATAL then { l with logLevel := level } else l

/-- Result of an os.Stat call: success carries the file size in bytes and
the modification time in Unix seconds; a failure is either a not-exist
error or any other error. -/
inductive StatResult where
  | ok (size : Int) (modTime : Int)
  | notExist
  | otherError
deriving DecidableEq

/-- One file-system call performed by a handler method.  renameF records a
call os.Rename(path, path.suffix). -/
inductive Action where
  | statF (path : String)
  | closeF (fd : Nat)
  | renameF (path : String) (suffix : Int)
  | openF (path : String)
  | writeF (fd : Nat)
deriving DecidableEq

/-- Result of running one handler method to completion: a normal return,
a lock acquisition that blocks forever, or a nil dereference. -/
inductive Outcome (α : Type) where
  | ok (val : α)
  | deadlock
  | crash
deriving DecidableEq

/-- Environment for one method call: what os.Stat(filePath) returns, whether
os.Rename and os.OpenFile succeed, and the descriptor id the OS would hand
out for a fresh open.  The code never inspects the rename error, so renameOk
only records which run is being considered. -/
structure World where
  statResult : StatResult
  renameOk : Bool
  openOk : Bool
  freshFd : Nat
deriving DecidableEq

/-- FileHandler from the source.  fileFd is the descriptor (none = nil
*os.File); log is the *log.Logger sink (none = nil *log.Logger), and a
non-nil sink carries the possibly-nil descriptor it writes to. -/
structure FileHandler where
  name : String
  off : Bool
  filePath : String
  fileFd : Option Nat
  log : Option (Option Nat)
deriving DecidableEq

/-- FileHandler.Log from the source: writes through the sink when it is
non-nil; a sink wrapping a nil descriptor makes the write fail inside the
process without reaching the OS, so no Action is recorded for it. -/
def FileHandler.Log (fh : FileHandler) : List Action :=
  match fh.log with
  | some (some fd) => [Action.writeF fd]
  | _ => []

/-- FileHandler.Run from the source: a no-op. -/
def FileHandler.Run (fh : FileHandler) : FileHandler × List Action := (fh, [])

/-- FileHandler.Close from the source: zeroes name, filePath and the sink,
sets off, and closes the descriptor (Close on a nil *os.File merely returns
ErrInvalid).  The fileFd field itself is not cleared by the source. -/
def FileHandler.Close (fh : FileHandler) : FileHandler × List Action :=
  ({ fh with name := "", off := true, log := none, filePath := "" },
   match fh.fileFd with
   | some fd => [Action.closeF fd]
   | none => [])

/-- SizeRotatingFileHandler from the source; the embedded FileHandler is the
fh field.  The two RWMutex fields carry no data and are represented by the
lock discipline described in the header comment. -/
structure SizeRotatingFileHandler where
  fh : FileHandler
  fileCount : Int
  fileSize : Int
  nextSuffix : Int
  running : Bool
  rotatingRun : Bool
  rotatingInterval : Int
deriving DecidableEq

/-- The nextSuffix update inside rotateOnce: wrap to 1 at or above
fileCount - 1, otherwise increment. -/
def nextSuffixStep (nextSuffix fileCount : Int) : Int :=
  if nextSuffix ≥ fileCount - 1 then 1 else nextSuffix + 1

/-- SizeRotatingFileHandler.Log invoked while the caller already holds
fileLock for writing (the situation inside rotateOnce): with a non-nil sink
it attempts fileLock.RLock before printing, which blocks forever. -/
def logWhileWriteLocked (srfh : SizeRotatingFileHandler) : Outcome Unit :=
  match srfh.fh.log with
  | some _ => Outcome.deadlock
  | none => Outcome.ok ()

/-- rotateOnce from the source: under the write lock, stat the file; on a
stat error report through the handler's own Log and return; otherwise, when
the size is at or above fileSize, close the descriptor, rename the file to
filePath.nextSuffix (the rename error is discarded), reopen filePath (the
open error is discarded; a failed open leaves a nil descriptor), rebuild the
sink around the new descriptor, and advance nextSuffix.  Reading the flags
of a nil sink dereferences nil. -/
def SizeRotatingFileHandler.rotateOnce (srfh : SizeRotatingFileHandler) (w : World) :
    Outcome (SizeRotatingFileHandler × List Action) :=
  match w.statResult with
  | StatResult.ok size _ =>
    if size ≥ srfh.fileSize then
      match srfh.fh.log with
      | none => Outcome.crash
      | some _ =>
        let closeActs := match srfh.fh.fileFd with
          | some fd => [Action.closeF fd]
          | none => []
        let newFd : Option Nat := if w.openOk then some w.freshFd else none
        Outcome.ok
          ({ srfh with
              fh := { srfh.fh with fileFd := newFd, log := some newFd },
              nextSuffix := nextSuffixStep srfh.nextSuffix srfh.fileCount },
            Action.statF srfh.fh.filePath :: closeActs ++
              [Action.renameF srfh.fh.filePath srfh.nextSuffix,
               Action.openF srfh.fh.filePath])
    else Outcome.ok (srfh, [Action.statF srfh.fh.filePath])
  | _ =>
    match logWhileWriteLocked srfh with
    | Outcome.ok _ => Outcome.ok (srfh, [Action.statF srfh.fh.filePath])
    | _ => Outcome.deadlock

/-- rotating from the source: return at once when nextSuffix is 0 or a
rotation attempt is already in flight, otherwise mark the attempt, run
rotateOnce, sleep for rotatingInterval (no observable effect) and clear the
mark. -/
def SizeRotatingFileHandler.rotating (srfh : SizeRotatingFileHandler) (w : World) :
    Outcome (SizeRotatingFileHandler × List Action) :=
  if srfh.nextSuffix = 0 ∨ srfh.rotatingRun then Outcome.ok (srfh, [])
  else
    match SizeRotatingFileHandler.rotateOnce { srfh with rotatingRun := true } w with
    | Outcome.ok (s, acts) => Outcome.ok ({ s with rotatingRun := false }, acts)
    | Outcome.deadlock => Outcome.deadlock
    | Outcome.crash => Outcome.crash

/-- SizeRotatingFileHandler.Log from the source, called with the lock free:
with a nil sink it is a no-op; otherwise it writes the line under RLock and
spawns rotating, which is sequenced here after the write (the goroutine is
run to completion; a deadlock outcome means the background task blocks
forever). -/
def SizeRotatingFileHandler.Log (srfh : SizeRotatingFileHandler) (w : World) :
    Outcome (SizeRotatingFileHandler × List Action) :=
  match srfh.fh.log with
  | none => Outcome.ok (srfh, [])
  | some sink =>
    let writeActs := match sink with
      | some fd => [Action.writeF fd]
      | none => []
    match SizeRotatingFileHandler.rotating srfh w with
    | Outcome.ok (s, acts) => Outcome.ok (s, writeActs ++ acts)
    | Outcome.deadlock => Outcome.deadlock
    | Outcome.crash => Outcome.crash

/-- SizeRotatingFileHandler.Run from the source: set running and call
rotateOnce directly (without the nextSuffix guard of rotating). -/
def SizeRotatingFileHandler.Run (srfh : SizeRotatingFileHandler) (w : World) :
    Outcome (SizeRotatingFileHandler × List Action) :=
  SizeRotatingFileHandler.rotateOnce { srfh with running := true } w

/-- SizeRotatingFileHandler.Close from the source: a final rotateOnce, then
zero fileCount, fileSize and nextSuffix, and close the embedded
FileHandler under the write lock. -/
def SizeRotatingFileHandler.Close (srfh : SizeRotatingFileHandler) (w : World) :
    Outcome (SizeRotatingFileHandler × List Action) :=
  match SizeRotatingFileHandler.rotateOnce srfh w with
  | Outcome.ok (s, acts) =>
    let s2 := { s with fileCount := 0, fileSize := 0, nextSuffix := 0 }
    let fhClosed := FileHandler.Close s2.fh
    Outcome.ok ({ s2 with fh := fhClosed.1 }, acts ++ fhClosed.2)
  | Outcome.deadlock => Outcome.deadlock
  | Outcome.crash => Outcome.crash

/-- The suffixes visited by the scan loop of checkNextSuffix:
n = 1, ..., fileCount - 1 in order. -/
def slotRange (fileCount : Int) : List Int :=
  (List.range (fileCount - 1).toNat).map (fun (k : Nat) => (k : Int) + 1)

/-- The loop body of checkNextSuffix over the remaining suffixes, carrying
minModTime and the current nextSuffix.  An existing backup is taken when
minModTime is still 0 (the unset sentinel) or strictly newer than the
candidate; a missing backup ends the loop keeping that slot; a stat failure
that is not not-exist dereferences the nil file info. -/
def scanSlots (dir : Int → StatResult) : List Int → Int → Int → Outcome Int
  | [], _, nextSuffix => Outcome.ok nextSuffix
  | n :: rest, minModTime, nextSuffix =>
    match dir n with
    | StatResult.ok _ mt =>
      if minModTime = 0 ∨ minModTime > mt then scanSlots dir rest mt n
      else scanSlots dir rest minModTime nextSuffix
    | StatResult.notExist => Outcome.ok n
    | StatResult.otherError => Outcome.crash

/-- checkNextSuffix from the source: nothing to do when nextSuffix is 0,
otherwise run the scan loop with minModTime starting at 0.  dir gives the
stat result for each backup path filePath.n. -/
def checkNextSuffix (dir : Int → StatResult) (srfh : SizeRotatingFileHandler) :
    Outcome SizeRotatingFileHandler :=
  if srfh.nextSuffix = 0 then Outcome.ok srfh
  else
    match scanSlots dir (slotRange srfh.fileCount) 0 srfh.nextSuffix with
    | Outcome.ok ns => Outcome.ok { srfh with nextSuffix := ns }
    | Outcome.deadlock => Outcome.deadlock
    | Outcome.crash => Outcome.crash

/-- The handler struct built by NewSizeRotatingFileHandler before the
backup scan, under the assumption that NewFileHandler succeeds (non-empty
path, directory creation and open both succeed; the fresh descriptor is 0):
rotation is marked disabled (nextSuffix = 0) only for a negative fileCount
or fileCount = 1, the stored count stays 1 in that case, a non-positive
fileSize defaults to MB, and the debounce interval is chosen from the
size. -/
def initState (name filePath : String) (fileCount fileSize : Int) :
    SizeRotatingFileHandler :=
  let fh : FileHandler :=
    { name := name, off := false, filePath := filePath,
      fileFd := some 0, log := some (some 0) }
  let nSuffix : Int := if fileCount < 0 ∨ fileCount = 1 then 0 else 1
  let nCount : Int := if fileCount < 0 ∨ fileCount = 1 then 1 else fileCount
  let nSize : Int := if fileSize > 0 then fileSize else MB
  let nInterval : Int :=
    if nSize < 10 * KB then 0
    else if nSize ≤ MB then 100
    else if nSize ≤ 100 * MB then 10000
    else if nSize ≤ GB then 50000
    else 100000
  { fh := fh, fileCount := nCount, fileSize := nSize, nextSuffix := nSuffix,
    running := false, rotatingRun := false, rotatingInterval := nInterval }

/-- NewSizeRotatingFileHandler from the source: build the initial struct
and run checkNextSuffix over the existing backups. -/
def NewSizeRotatingFileHandler (name filePath : String) (fileCount : Int)
    (fileSize : Int) (dir : Int → StatResult) : Outcome SizeRotatingFileHandler :=
  checkNextSuffix dir (initState name filePath fileCount fileSize)

/-- True on a successful stat result. -/
def isOkB : StatResult → Bool
  | StatResult.ok _ _ => true
  | _ => false

/-- Modification time of a successful stat result, 0 otherwise. -/
def mtOf : StatResult → Int
  | StatResult.ok _ mt => mt
  | _ => 0

/-- True when a successful stat result has a nonzero modification time;
true on failures. -/
def okNonzeroMT : StatResult → Bool
  | StatResult.ok _ mt => mt != 0
  | _ => true

/-- nextSuffix of a successfully constructed handler, 0 otherwise. -/
def nsOf : Outcome SizeRotatingFileHandler → Int
  | Outcome.ok s => s.nextSuffix
  | _ => 0

/-- fileCount of a successfully constructed handler, 0 otherwise. -/
def fcOf : Outcome SizeRotatingFileHandler → Int
  | Outcome.ok s => s.fileCount
  | _ => 0

/-- The rename calls performed by a normally returning method call. -/
def renamesOf : Outcome (SizeRotatingFileHandler × List Action) → List Action
  | Outcome.ok (_, acts) =>
      acts.filter (fun a => match a with | Action.renameF _ _ => true | _ => false)
  | _ => []

/-- True on a write action. -/
def isWrite : Action → Bool
  | Action.writeF _ => true
  | _ => false

/-- Membership in the scan range is exactly 1 ≤ n < fileCount. -/
theorem mem_slotRange {fileCount n : Int} :
    n ∈ slotRange fileCount ↔ 1 ≤ n ∧ n < fileCount := by
  constructor
  · intro h
    obtain ⟨k, hk, hkn⟩ := List.mem_map.mp h
    have hk' : k < (fileCount - 1).toNat := List.mem_range.mp hk
    have hkn' : (k : Int) + 1 = n := hkn
    omega
  · intro h
    refine List.mem_map.mpr ⟨(n - 1).toNat, List.mem_range.mpr ?_, ?_⟩
    · omega
    · show ((n - 1).toNat : Int) + 1 = n
      omega

/-- A normally returning scan keeps the incoming suffix or lands on one of
the scanned slots. -/
theorem scanSlots_ok_mem (dir : Int → StatResult) :
    ∀ (l : List Int) (m ns r : Int),
      scanSlots dir l m ns = Outcome.ok r → r = ns ∨ r ∈ l := by
  intro l
  induction l with
  | nil =>
    intro m ns r h
    simp only [scanSlots] at h
    exact Or.inl (Outcome.ok.inj h).symm
  | cons x rest ih =>
    intro m ns r h
    cases hdx : dir x with
    | ok sz mt =>
      simp only [scanSlots, hdx] at h
      split at h
      · rcases ih mt x r h with h' | h'
        · exact Or.inr (h' ▸ List.mem_cons_self x rest)
        · exact Or.inr (List.mem_cons_of_mem x h')
      · rcases ih m ns r h with h' | h'
        · exact Or.inl h'
        · exact Or.inr (List.mem_cons_of_mem x h')
    | notExist =>
      simp only [scanSlots, hdx] at h
      exact Or.inr ((Outcome.ok.inj h).symm ▸ List.mem_cons_self x rest)
    | otherError =>
      simp only [scanSlots, hdx] at h
      exact Outcome.noConfusion h

/-- When no scanned slot stats with a hard error, the scan returns
normally. -/
theorem scanSlots_ok_of_clean (dir : Int → StatResult) :
    ∀ (l : List Int) (m ns : Int),
      (∀ x ∈ l, dir x ≠ StatResult.otherError) →
      ∃ r, scanSlots dir l m ns = Outcome.ok r := by
  intro l
  induction l with
  | nil => exact fun m ns _ => ⟨ns, rfl⟩
  | cons x rest ih =>
    intro m ns hclean
    cases hdx : dir x with
    | ok sz mt =>
      by_cases hc : m = 0 ∨ m > mt
      · obtain ⟨r, hr⟩ := ih mt x (fun y hy => hclean y (List.mem_cons_of_mem x hy))
        refine ⟨r, ?_⟩
        simp only [scanSlots, hdx]
        rw [if_pos hc]
        exact hr
      · obtain ⟨r, hr⟩ := ih m ns (fun y hy => hclean y (List.mem_cons_of_mem x hy))
        refine ⟨r, ?_⟩
        simp only [scanSlots, hdx]
        rw [if_neg hc]
        exact hr
    | notExist => exact ⟨x, by simp [scanSlots, hdx]⟩
    | otherError => exact absurd hdx (hclean x (List.mem_cons_self x rest))

/-- When some scanned slot is absent (and no slot stats with a hard error),
the slot the scan returns is an absent one. -/
theorem scanSlots_absent (dir : Int → StatResult) :
    ∀ (l : List Int) (m ns r : Int),
      (∀ x ∈ l, dir x ≠ StatResult.otherError) →
      (∃ x ∈ l, dir x = StatResult.notExist) →
      scanSlots dir l m ns = Outcome.ok r → dir r = StatResult.notExist := by
  intro l
  induction l with
  | nil =>
    intro m ns r _ habs _
    simp at habs
  | cons x rest ih =>
    intro m ns r hclean habs h
    cases hdx : dir x with
    | ok sz mt =>
      have habs' : ∃ y ∈ rest, dir y = StatResult.notExist := by
        rcases habs with ⟨y, hy, hye⟩
        rcases List.mem_cons.mp hy with rfl | hy'
        · rw [hdx] at hye; exact absurd hye (by simp)
        · exact ⟨y, hy', hye⟩
      have hclean' : ∀ y ∈ rest, dir y ≠ StatResult.otherError :=
        fun y hy => hclean y (List.mem_cons_of_mem x hy)
      simp only [scanSlots, hdx] at h
      split at h
      · exact ih mt x r hclean' habs' h
      · exact ih m ns r hclean' habs' h
    | notExist =>
      simp only [scanSlots, hdx] at h
      rw [← Outcome.ok.inj h]
      exact hdx
    | otherError =>
      simp only [scanSlots, hdx] at h
      exact Outcome.noConfusion h

/-- With every scanned slot present and carrying a nonzero modification
time, and the accumulator recording the modification time of the current
candidate, the scan returns a slot whose modification time is a lower bound
for the accumulator and for every scanned slot. -/
theorem scanSlots_minNZ (dir : Int → StatResult) :
    ∀ (l : List Int) (m ns r : Int),
      m ≠ 0 → m = mtOf (dir ns) →
      (∀ x ∈ l, isOkB (dir x) = true ∧ mtOf (dir x) ≠ 0) →
      scanSlots dir l m ns = Outcome.ok r →
      (r = ns ∨ r ∈ l) ∧ mtOf (dir r) ≤ m ∧ ∀ x ∈ l, mtOf (dir r) ≤ mtOf (dir x) := by
  intro l
  induction l with
  | nil =>
    intro m ns r hm0 hmns _ h
    simp only [scanSlots] at h
    rw [← Outcome.ok.inj h]
    exact ⟨Or.inl rfl, le_of_eq hmns.symm, by simp⟩
  | cons x rest ih =>
    intro m ns r hm0 hmns hall h
    obtain ⟨hok, hnz⟩ := hall x (List.mem_cons_self x rest)
    have hall' : ∀ y ∈ rest, isOkB (dir y) = true ∧ mtOf (dir y) ≠ 0 :=
      fun y hy => hall y (List.mem_cons_of_mem x hy)
    cases hdx : dir x with
    | ok sz mt =>
      have hmtx : mtOf (dir x) = mt := by rw [hdx]; rfl
      simp only [scanSlots, hdx] at h
      by_cases hgt : m > mt
      · rw [if_pos (Or.inr hgt)] at h
        have hmt0 : mt ≠ 0 := by rw [← hmtx]; exact hnz
        obtain ⟨hmem, hle, hbnd⟩ := ih mt x r hmt0 (by rw [hmtx]) hall' h
        refine ⟨Or.inr ?_, le_trans hle (le_of_lt hgt), ?_⟩
        · rcases hmem with h' | h'
          · rw [h']; exact List.mem_cons_self x rest
          · exact List.mem_cons_of_mem x h'
        · intro y hy
          rcases List.mem_cons.mp hy with rfl | hy'
          · rw [hmtx]; exact hle
          · exact hbnd y hy'
      · have hcond : ¬(m = 0 ∨ m > mt) := by
          rintro (h0 | hgt')
          · exact hm0 h0
          · exact hgt hgt'
        rw [if_neg hcond] at h
        obtain ⟨hmem, hle, hbnd⟩ := ih m ns r hm0 hmns hall' h
        refine ⟨?_, hle, ?_⟩
        · rcases hmem with h' | h'
          · exact Or.inl h'
          · exact Or.inr (List.mem_cons_of_mem x h')
        · intro y hy
          rcases List.mem_cons.mp hy with rfl | hy'
          · rw [hmtx]
            exact le_trans hle (not_lt.mp hgt)
          · exact hbnd y hy'
    | notExist =>
      rw [hdx] at hok
      exact absurd hok (by simp [isOkB])
    | otherError =>
      rw [hdx] at hok
      exact absurd hok (by simp [isOkB])

/-- Starting from the unset sentinel 0, a scan of a nonempty all-present
list with nonzero modification times returns a slot of the list whose
modification time is minimal among the scanned slots. -/
theorem scanSlots_min0 (dir : Int → StatResult) (l : List Int) (ns r : Int)
    (hne : l ≠ [])
    (hall : ∀ x ∈ l, isOkB (dir x) = true ∧ mtOf (dir x) ≠ 0)
    (h : scanSlots dir l 0 ns = Outcome.ok r) :
    r ∈ l ∧ ∀ x ∈ l, mtOf (dir r) ≤ mtOf (dir x) := by
  cases l with
  | nil => exact absurd rfl hne
  | cons x rest =>
    obtain ⟨hok, hnz⟩ := hall x (List.mem_cons_self x rest)
    have hall' : ∀ y ∈ rest, isOkB (dir y) = true ∧ mtOf (dir y) ≠ 0 :=
      fun y hy => hall y (List.mem_cons_of_mem x hy)
    cases hdx : dir x with
    | ok sz mt =>
      have hmtx : mtOf (dir x) = mt := by rw [hdx]; rfl
      simp only [scanSlots, hdx, true_or, if_true] at h
      have hmt0 : mt ≠ 0 := by rw [← hmtx]; exact hnz
      obtain ⟨hmem, hle, hbnd⟩ := scanSlots_minNZ dir rest mt x r hmt0 (by rw [hmtx]) hall' h
      refine ⟨?_, ?_⟩
      · rcases hmem with h' | h'
        · rw [h']; exact List.mem_cons_self x rest
        · exact List.mem_cons_of_mem x h'
      · intro y hy
        rcases List.mem_cons.mp hy with rfl | hy'
        · rw [hmtx]; exact hle
        · exact hbnd y hy'
    | notExist =>
      rw [hdx] at hok
      exact absurd hok (by simp [isOkB])
    | otherError =>
      rw [hdx] at hok
      exact absurd hok (by simp [isOkB])

/-- When no scanned slot is absent and some slot stats with a hard error,
the scan dereferences the nil file info. -/
theorem scanSlots_err (dir : Int → StatResult) :
    ∀ (l : List Int) (m ns : Int),
      (∀ x ∈ l, dir x ≠ StatResult.notExist) →
      (∃ x ∈ l, dir x = StatResult.otherError) →
      scanSlots dir l m ns = Outcome.crash := by
  intro l
  induction l with
  | nil =>
    intro m ns _ habs
    simp at habs
  | cons x rest ih =>
    intro m ns hpres habs
    cases hdx : dir x with
    | ok sz mt =>
      have habs' : ∃ y ∈ rest, dir y = StatResult.otherError := by
        rcases habs with ⟨y, hy, hye⟩
        rcases List.mem_cons.mp hy with rfl | hy'
        · rw [hdx] at hye; exact absurd hye (by simp)
        · exact ⟨y, hy', hye⟩
      have hpres' : ∀ y ∈ rest, dir y ≠ StatResult.notExist :=
        fun y hy => hpres y (List.mem_cons_of_mem x hy)
      by_cases hc : m = 0 ∨ m > mt
      · simp only [scanSlots, hdx]
        rw [if_pos hc]
        exact ih mt x hpres' habs'
      · simp only [scanSlots, hdx]
        rw [if_neg hc]
        exact ih m ns hpres' habs'
    | notExist =>
      exact absurd hdx (hpres x (List.mem_cons_self x rest))
    | otherError =>
      simp [scanSlots, hdx]

/-- The state produced by a rotation inside rotateOnce: a fresh descriptor
(nil when the open fails), the sink rebuilt around it, and nextSuffix
advanced. -/
def rotatedState (srfh : SizeRotatingFileHandler) (w : World) : SizeRotatingFileHandler :=
  { srfh with
      fh := { srfh.fh with
                fileFd := if w.openOk then some w.freshFd else none,
                log := some (if w.openOk then some w.freshFd else none) },
      nextSuffix := nextSuffixStep srfh.nextSuffix srfh.fileCount }

/-- The file-system calls performed by a rotation inside rotateOnce: stat,
close of the old descriptor, rename of the active file to
filePath.nextSuffix, and reopen of the active path. -/
def rotatedActs (srfh : SizeRotatingFileHandler) : List Action :=
  Action.statF srfh.fh.filePath ::
    (match srfh.fh.fileFd with
      | some fd => [Action.closeF fd]
      | none => []) ++
    [Action.renameF srfh.fh.filePath srfh.nextSuffix,
     Action.openF srfh.fh.filePath]

/-- rotateOnce with a successful stat at or above the threshold and a
non-nil sink performs exactly the rotation. -/
theorem rotateOnce_rotates (srfh : SizeRotatingFileHandler) (w : World)
    (size mt : Int) (sink : Option Nat)
    (hstat : w.statResult = StatResult.ok size mt)
    (hsz : size ≥ srfh.fileSize)
    (hlog : srfh.fh.log = some sink) :
    srfh.rotateOnce w = Outcome.ok (rotatedState srfh w, rotatedActs srfh) := by
  simp only [SizeRotatingFileHandler.rotateOnce, hstat, hlog]
  rw [if_pos hsz]
  simp [rotatedState, rotatedActs]

/-- rotateOnce with a successful stat strictly below the threshold: no
effect beyond the stat. -/
theorem rotateOnce_skips (srfh : SizeRotatingFileHandler) (w : World)
    (size mt : Int)
    (hstat : w.statResult = StatResult.ok size mt)
    (hsz : size < srfh.fileSize) :
    srfh.rotateOnce w = Outcome.ok (srfh, [Action.statF srfh.fh.filePath]) := by
  simp only [SizeRotatingFileHandler.rotateOnce, hstat]
  rw [if_neg (not_le.mpr hsz)]

/-- rotateOnce with a failing stat and a non-nil sink: the error report
through the handler's own Log blocks forever on the read lock. -/
theorem rotateOnce_statFail_sink (srfh : SizeRotatingFileHandler) (w : World)
    (sink : Option Nat)
    (hstat : isOkB w.statResult = false)
    (hlog : srfh.fh.log = some sink) :
    srfh.rotateOnce w = Outcome.deadlock := by
  cases hw : w.statResult with
  | ok sz mt => rw [hw] at hstat; exact absurd hstat (by simp [isOkB])
  | notExist =>
    simp only [SizeRotatingFileHandler.rotateOnce, hw, logWhileWriteLocked, hlog]
  | otherError =>
    simp only [SizeRotatingFileHandler.rotateOnce, hw, logWhileWriteLocked, hlog]

/-- rotateOnce with a failing stat and a nil sink: the error report is a
no-op and the rotation cycle is skipped. -/
theorem rotateOnce_statFail_noSink (srfh : SizeRotatingFileHandler) (w : World)
    (hstat : isOkB w.statResult = false)
    (hlog : srfh.fh.log = none) :
    srfh.rotateOnce w = Outcome.ok (srfh, [Action.statF srfh.fh.filePath]) := by
  cases hw : w.statResult with
  | ok sz mt => rw [hw] at hstat; exact absurd hstat (by simp [isOkB])
  | notExist =>
    simp only [SizeRotatingFileHandler.rotateOnce, hw, logWhileWriteLocked, hlog]
  | otherError =>
    simp only [SizeRotatingFileHandler.rotateOnce, hw, logWhileWriteLocked, hlog]

/-- Field values of the pre-scan handler struct. -/
theorem initState_nextSuffix (name filePath : String) (fileCount fileSize : Int) :
    (initState name filePath fileCount fileSize).nextSuffix =
      if fileCount < 0 ∨ fileCount = 1 then 0 else 1 := rfl

/-- Stored file count of the pre-scan handler struct. -/
theorem initState_fileCount (name filePath : String) (fileCount fileSize : Int) :
    (initState name filePath fileCount fileSize).fileCount =
      if fileCount < 0 ∨ fileCount = 1 then 1 else fileCount := rfl

/-- Sink of the pre-scan handler struct. -/
theorem initState_log (name filePath : String) (fileCount fileSize : Int) :
    (initState name filePath fileCount fileSize).fh.log = some (some 0) := rfl

/-- A disabled construction (negative fileCount or fileCount = 1) skips the
backup scan and returns the pre-scan struct, whose nextSuffix is 0. -/
theorem new_disabled (name filePath : String) (fileCount fileSize : Int)
    (dir : Int → StatResult)
    (hfc : fileCount < 0 ∨ fileCount = 1) :
    NewSizeRotatingFileHandler name filePath fileCount fileSize dir =
      Outcome.ok (initState name filePath fileCount fileSize) := by
  unfold NewSizeRotatingFileHandler checkNextSuffix
  rw [if_pos (by rw [initState_nextSuffix, if_pos hfc])]

/-- An enabled construction (fileCount at least 2) returns the pre-scan
struct with nextSuffix replaced by the scan result. -/
theorem new_enabled (name filePath : String) (fileCount fileSize : Int)
    (dir : Int → StatResult) (s : SizeRotatingFileHandler)
    (hfc : 2 ≤ fileCount)
    (hs : NewSizeRotatingFileHandler name filePath fileCount fileSize dir = Outcome.ok s) :
    ∃ r, scanSlots dir (slotRange fileCount) 0 1 = Outcome.ok r ∧
      s.nextSuffix = r ∧ s.fileCount = fileCount ∧
      s.fh = (initState name filePath fileCount fileSize).fh := by
  have hcond : ¬(fileCount < 0 ∨ fileCount = 1) := by omega
  unfold NewSizeRotatingFileHandler checkNextSuffix at hs
  rw [if_neg (by rw [initState_nextSuffix, if_neg hcond]; omega)] at hs
  rw [initState_fileCount, if_neg hcond, initState_nextSuffix, if_neg hcond] at hs
  cases hscan : scanSlots dir (slotRange fileCount) 0 1 with
  | ok r =>
    rw [hscan] at hs
    have h := Outcome.ok.inj hs
    exact ⟨r, rfl, by rw [← h], by rw [← h], by rw [← h]⟩
  | deadlock =>
    rw [hscan] at hs
    exact Outcome.noConfusion hs
  | crash =>
    rw [hscan] at hs
    exact Outcome.noConfusion hs

/-- A Log call on a handler whose nextSuffix is 0: the line is written when
the sink is non-nil, the spawned rotation check returns at once, and the
state is unchanged. -/
theorem Log_disabled (s : SizeRotatingFileHandler) (w : World)
    (hns : s.nextSuffix = 0) :
    s.Log w = Outcome.ok (s, FileHandler.Log s.fh) := by
  cases hlog : s.fh.log with
  | none =>
    simp only [SizeRotatingFileHandler.Log, FileHandler.Log, hlog]
  | some sink =>
    simp only [SizeRotatingFileHandler.Log, SizeRotatingFileHandler.rotating, hlog]
    rw [if_pos (Or.inl hns)]
    cases sink with
    | none => simp [FileHandler.Log, hlog]
    | some fd => simp [FileHandler.Log, hlog]

/-- Every action a FileHandler Log call performs is a write. -/
theorem fileHandler_log_writes (fh : FileHandler) :
    ∀ a ∈ fh.Log, isWrite a = true := by
  intro a ha
  cases hlog : fh.log with
  | none =>
    simp only [FileHandler.Log, hlog] at ha
    simp at ha
  | some sink =>
    cases sink with
    | none =>
      simp only [FileHandler.Log, hlog] at ha
      simp at ha
    | some fd =>
      simp only [FileHandler.Log, hlog] at ha
      simp only [List.mem_singleton] at ha
      rw [ha]
      rfl

/-- A live handler over path f with fileCount 3, fileSize 100 and
nextSuffix 2, used as a concrete evaluation point. -/
def hBase : SizeRotatingFileHandler :=
  { fh := { name := "h", off := false, filePath := "f", fileFd := some 0, log := some (some 0) },
    fileCount := 3, fileSize := 100, nextSuffix := 2,
    running := false, rotatingRun := false, rotatingInterval := 100 }

/-- A run in which os.Stat succeeds with size 150 and modification time 7. -/
def wHigh : World :=
  { statResult := StatResult.ok 150 7, renameOk := true, openOk := true, freshFd := 1 }

/-- A run in which os.Stat succeeds with size 50 and modification time 7. -/
def wLow : World :=
  { statResult := StatResult.ok 50 7, renameOk := true, openOk := true, freshFd := 1 }

/-- A run in which os.Stat fails. -/
def wStatFail : World :=
  { statResult := StatResult.notExist, renameOk := true, openOk := true, freshFd := 1 }

/-- A directory with no backup files. -/
def emptyDir : Int → StatResult := fun _ => StatResult.notExist

/-- C10: for every Logger whose current level is FATAL (or above), SetLevel
leaves the level unchanged for every argument, and SetLevel assigns its
argument exactly while the current level is strictly below FATAL. -/
theorem c10_fatal_absorbing (l : Logger) (level : Nat) :
    (FATAL ≤ l.logLevel → Logger.SetLevel l level = l) ∧
    (l.logLevel < FATAL → Logger.SetLevel l level = { l with logLevel := level }) := by
  unfold Logger.SetLevel
  constructor
  · intro h
    rw [if_neg (by omega)]
  · intro h
    rw [if_pos h]

/-- C10 witness: a Logger at FATAL keeps its level under SetLevel DEBUG,
and a Logger at INFO is moved to ERROR. -/
theorem c10_witness :
    Logger.SetLevel { logLevel := FATAL, handlers := [] } DEBUG =
      { logLevel := FATAL, handlers := [] } ∧
    Logger.SetLevel { logLevel := INFO, handlers := [] } ERROR =
      { logLevel := ERROR, handlers := [] } :=
  ⟨(c10_fatal_absorbing { logLevel := FATAL, handlers := [] } DEBUG).1 (by decide),
   (c10_fatal_absorbing { logLevel := INFO, handlers := [] } ERROR).2 (by decide)⟩

/-- C6: on a handler with fileCount at least 2, a rotation step inside
rotateOnce advances nextSuffix by one, except that from any value at or
above fileCount - 1 it wraps to 1; from a value in the backup ring
[1, fileCount) the result stays in the ring. -/
theorem c6_suffix_ring (srfh : SizeRotatingFileHandler) (w : World)
    (size mt : Int) (sink : Option Nat)
    (hstat : w.statResult = StatResult.ok size mt)
    (hsz : size ≥ srfh.fileSize)
    (hlog : srfh.fh.log = some sink)
    (hfc : 2 ≤ srfh.fileCount) :
    srfh.rotateOnce w = Outcome.ok (rotatedState srfh w, rotatedActs srfh) ∧
    (rotatedState srfh w).nextSuffix =
      (if srfh.fileCount - 1 ≤ srfh.nextSuffix then 1 else srfh.nextSuffix + 1) ∧
    (1 ≤ srfh.nextSuffix → srfh.nextSuffix < srfh.fileCount →
      1 ≤ (rotatedState srfh w).nextSuffix ∧
      (rotatedState srfh w).nextSuffix < srfh.fileCount) := by
  refine ⟨rotateOnce_rotates srfh w size mt sink hstat hsz hlog, ?_, ?_⟩
  · simp [rotatedState, nextSuffixStep, ge_iff_le]
  · intro h1 h2
    simp only [rotatedState, nextSuffixStep]
    split_ifs with h <;> constructor <;> omega

/-- C6 witness: at fileCount 3 and nextSuffix 2 a rotation wraps the suffix
to 1, inside the ring. -/
theorem c6_witness :
    SizeRotatingFileHandler.rotateOnce hBase wHigh =
      Outcome.ok (rotatedState hBase wHigh, rotatedActs hBase) ∧
    (rotatedState hBase wHigh).nextSuffix =
      (if hBase.fileCount - 1 ≤ hBase.nextSuffix then 1 else hBase.nextSuffix + 1) ∧
    (1 ≤ (rotatedState hBase wHigh).nextSuffix ∧
      (rotatedState hBase wHigh).nextSuffix < hBase.fileCount) := by
  obtain ⟨h1, h2, h3⟩ :=
    c6_suffix_ring hBase wHigh 150 7 (some 0) rfl (by decide) rfl (by decide)
  exact ⟨h1, h2, h3 (by decide) (by decide)⟩

/-- C7: with a successful stat, rotateOnce rotates exactly when the size is
at or above fileSize: strictly below the threshold nothing but the stat
happens and the state is unchanged; at or above it the active file is
renamed to a backup and a fresh descriptor is opened at the active path. -/
theorem c7_threshold_inclusive (srfh : SizeRotatingFileHandler) (w : World)
    (size mt : Int) (sink : Option Nat)
    (hstat : w.statResult = StatResult.ok size mt)
    (hlog : srfh.fh.log = some sink)
    (hopen : w.openOk = true) :
    (size < srfh.fileSize →
      srfh.rotateOnce w = Outcome.ok (srfh, [Action.statF srfh.fh.filePath])) ∧
    (srfh.fileSize ≤ size →
      srfh.rotateOnce w = Outcome.ok (rotatedState srfh w, rotatedActs srfh) ∧
      Action.renameF srfh.fh.filePath srfh.nextSuffix ∈ rotatedActs srfh ∧
      Action.openF srfh.fh.filePath ∈ rotatedActs srfh ∧
      (rotatedState srfh w).fh.fileFd = some w.freshFd) := by
  constructor
  · exact fun h => rotateOnce_skips srfh w size mt hstat h
  · intro h
    refine ⟨rotateOnce_rotates srfh w size mt sink hstat h hlog, ?_, ?_, ?_⟩
    · cases hfd : srfh.fh.fileFd <;> simp [rotatedActs, hfd]
    · cases hfd : srfh.fh.fileFd <;> simp [rotatedActs, hfd]
    · simp [rotatedState, hopen]

/-- C7 witness: at threshold 100 a stat of size 50 leaves the handler
untouched, and a stat of size 150 renames to f.2 and opens descriptor 1. -/
theorem c7_witness :
    SizeRotatingFileHandler.rotateOnce hBase wLow =
      Outcome.ok (hBase, [Action.statF "f"]) ∧
    (SizeRotatingFileHandler.rotateOnce hBase wHigh =
        Outcome.ok (rotatedState hBase wHigh, rotatedActs hBase) ∧
      Action.renameF "f" 2 ∈ rotatedActs hBase ∧
      Action.openF "f" ∈ rotatedActs hBase ∧
      (rotatedState hBase wHigh).fh.fileFd = some 1) :=
  ⟨(c7_threshold_inclusive hBase wLow 50 7 (some 0) rfl rfl rfl).1 (by decide),
   (c7_threshold_inclusive hBase wHigh 150 7 (some 0) rfl rfl rfl).2 (by decide)⟩

/-- C3: when the stat of the active file fails on a handler with a live
sink, rotateOnce does not log an error line and return; it calls the
handler's own Log while holding the write lock, and the RLock inside Log
blocks forever.  Run, Close and (through the spawned check) Log therefore
all block instead of skipping the cycle. -/
theorem c3_stat_failure_blocks :
    SizeRotatingFileHandler.rotateOnce hBase wStatFail = Outcome.deadlock ∧
    SizeRotatingFileHandler.Run hBase wStatFail = Outcome.deadlock ∧
    SizeRotatingFileHandler.Close hBase wStatFail = Outcome.deadlock ∧
    SizeRotatingFileHandler.Log hBase wStatFail = Outcome.deadlock := by decide

/-- The state built by constructing over an empty directory with
fileCount 1 and fileSize 100: rotation disabled, nextSuffix 0. -/
def c1s : SizeRotatingFileHandler :=
  { fh := { name := "h", off := false, filePath := "f", fileFd := some 0, log := some (some 0) },
    fileCount := 1, fileSize := 100, nextSuffix := 0,
    running := false, rotatingRun := false, rotatingInterval := 0 }

/-- c1s after its Run call under a stat of size 100. -/
def c1sAfter : SizeRotatingFileHandler :=
  { fh := { name := "h", off := false, filePath := "f", fileFd := some 1, log := some (some 1) },
    fileCount := 1, fileSize := 100, nextSuffix := 1,
    running := true, rotatingRun := false, rotatingInterval := 0 }

/-- A run in which os.Stat succeeds with size 100 (at the threshold). -/
def wAt : World :=
  { statResult := StatResult.ok 100 0, renameOk := true, openOk := true, freshFd := 1 }

/-- C1 counterexample: a handler constructed with fileCount = 1 (rotation
disabled, nextSuffix 0) whose file has reached the threshold: the claim
says no Run call ever renames the active file or opens a new descriptor,
but Run calls rotateOnce unguarded, renames the file to f.0, opens
descriptor 1 and sets nextSuffix to 1. -/
theorem c1_counterexample :
    NewSizeRotatingFileHandler "h" "f" 1 100 emptyDir = Outcome.ok c1s ∧
    SizeRotatingFileHandler.Run c1s wAt =
      Outcome.ok (c1sAfter,
        [Action.statF "f", Action.closeF 0, Action.renameF "f" 0, Action.openF "f"]) ∧
    c1s.nextSuffix = 0 ∧ c1sAfter.nextSuffix = 1 := by decide

/-- C1 amended: for fileCount negative or equal to 1 (fileCount = 0 does
not disable rotation), construction yields nextSuffix 0 and a Log call is a
plain write: it renames nothing, opens nothing and leaves the state
unchanged, so no sequence of Log calls ever rotates; Run and Close,
however, still reach the unguarded rotateOnce (see the C1
counterexample). -/
theorem c1_amended (name filePath : String) (fileCount fileSize : Int)
    (dir : Int → StatResult) (w : World) (s : SizeRotatingFileHandler)
    (hfc : fileCount < 0 ∨ fileCount = 1)
    (hs : NewSizeRotatingFileHandler name filePath fileCount fileSize dir = Outcome.ok s) :
    s.nextSuffix = 0 ∧
    s.Log w = Outcome.ok (s, FileHandler.Log s.fh) ∧
    ∀ a ∈ FileHandler.Log s.fh, isWrite a = true := by
  rw [new_disabled name filePath fileCount fileSize dir hfc] at hs
  have hse := Outcome.ok.inj hs
  have hns : s.nextSuffix = 0 := by
    rw [← hse, initState_nextSuffix, if_pos hfc]
  exact ⟨hns, Log_disabled s w hns, fileHandler_log_writes s.fh⟩

/-- The state built by constructing over an empty directory with
fileCount -2 and fileSize 5. -/
def c1wS : SizeRotatingFileHandler :=
  { fh := { name := "h", off := false, filePath := "f", fileFd := some 0, log := some (some 0) },
    fileCount := 1, fileSize := 5, nextSuffix := 0,
    running := false, rotatingRun := false, rotatingInterval := 0 }

/-- C1 witness: the amended statement at fileCount -2. -/
theorem c1_witness :
    NewSizeRotatingFileHandler "h" "f" (-2) 5 emptyDir = Outcome.ok c1wS ∧
    c1wS.nextSuffix = 0 ∧
    SizeRotatingFileHandler.Log c1wS wAt = Outcome.ok (c1wS, FileHandler.Log c1wS.fh) :=
  ⟨by decide,
   (c1_amended "h" "f" (-2) 5 emptyDir wAt c1wS (Or.inl (by decide)) (by decide)).1,
   (c1_amended "h" "f" (-2) 5 emptyDir wAt c1wS (Or.inl (by decide)) (by decide)).2.1⟩

/-- rotateOnce with a successful stat at or above the threshold and a nil
sink dereferences nil when reading the sink flags. -/
theorem rotateOnce_nilSink (srfh : SizeRotatingFileHandler) (w : World)
    (size mt : Int)
    (hstat : w.statResult = StatResult.ok size mt)
    (hsz : size ≥ srfh.fileSize)
    (hlog : srfh.fh.log = none) :
    srfh.rotateOnce w = Outcome.crash := by
  simp only [SizeRotatingFileHandler.rotateOnce, hstat, hlog]
  rw [if_pos hsz]

/-- A run in which os.Stat succeeds with size 150 but the rename fails. -/
def wRenameFail : World :=
  { statResult := StatResult.ok 150 7, renameOk := false, openOk := true, freshFd := 1 }

/-- hBase after a rotation in which the rename fails: descriptor 0 is
closed anyway and replaced by fresh descriptor 1. -/
def c4sAfter : SizeRotatingFileHandler :=
  { fh := { name := "h", off := false, filePath := "f", fileFd := some 1, log := some (some 1) },
    fileCount := 3, fileSize := 100, nextSuffix := 1,
    running := false, rotatingRun := false, rotatingInterval := 100 }

/-- C4 counterexample: in a rotation whose rename fails, the claim says the
old descriptor is still open and writable; but the code closes descriptor 0
before calling rename, ignores the rename error, and continues on fresh
descriptor 1 — the old descriptor is not kept. -/
theorem c4_counterexample :
    wRenameFail.renameOk = false ∧
    hBase.fh.fileFd = some 0 ∧
    SizeRotatingFileHandler.rotateOnce hBase wRenameFail =
      Outcome.ok (c4sAfter,
        [Action.statF "f", Action.closeF 0, Action.renameF "f" 2, Action.openF "f"]) ∧
    c4sAfter.fh.fileFd = some 1 := by decide

/-- C4 amended: when the rename fails during a rotation, the old descriptor
has already been closed (it is not kept open); the handler ignores the
rename error, reopens the same path on a fresh descriptor, rebuilds the
sink around it — so write capability is retained only through the new
descriptor and only when the reopen succeeds — and the suffix bookkeeping
still advances. -/
theorem c4_amended (srfh : SizeRotatingFileHandler) (w : World)
    (size mt : Int) (sink : Option Nat) (oldFd : Nat)
    (hstat : w.statResult = StatResult.ok size mt)
    (hsz : size ≥ srfh.fileSize)
    (hlog : srfh.fh.log = some sink)
    (hfd : srfh.fh.fileFd = some oldFd)
    (hren : w.renameOk = false)
    (hopen : w.openOk = true)
    (hfresh : w.freshFd ≠ oldFd) :
    srfh.rotateOnce w = Outcome.ok (rotatedState srfh w, rotatedActs srfh) ∧
    Action.closeF oldFd ∈ rotatedActs srfh ∧
    Action.openF srfh.fh.filePath ∈ rotatedActs srfh ∧
    (rotatedState srfh w).fh.fileFd = some w.freshFd ∧
    (rotatedState srfh w).fh.fileFd ≠ some oldFd ∧
    (rotatedState srfh w).fh.log = some (some w.freshFd) ∧
    (rotatedState srfh w).nextSuffix = nextSuffixStep srfh.nextSuffix srfh.fileCount := by
  refine ⟨rotateOnce_rotates srfh w size mt sink hstat hsz hlog, ?_, ?_, ?_, ?_, ?_, rfl⟩
  · simp [rotatedActs, hfd]
  · cases hfd2 : srfh.fh.fileFd <;> simp [rotatedActs, hfd2]
  · simp [rotatedState, hopen]
  · simp [rotatedState, hopen, hfresh]
  · simp [rotatedState, hopen]

/-- C4 witness: the amended statement at hBase under the failing-rename
run. -/
theorem c4_witness :
    SizeRotatingFileHandler.rotateOnce hBase wRenameFail =
      Outcome.ok (rotatedState hBase wRenameFail, rotatedActs hBase) ∧
    Action.closeF 0 ∈ rotatedActs hBase ∧
    (rotatedState hBase wRenameFail).fh.fileFd = some 1 ∧
    (rotatedState hBase wRenameFail).fh.fileFd ≠ some 0 := by
  obtain ⟨h1, h2, h3, h4, h5, h6, h7⟩ :=
    c4_amended hBase wRenameFail 150 7 (some 0) 0 rfl (by decide) rfl rfl rfl rfl (by decide)
  exact ⟨h1, h2, h4, h5⟩

/-- The state built by constructing over an empty directory with
fileCount 0: fileCount = 0 escapes the disabled check, so nextSuffix stays
1 while the stored count is 0. -/
def c5s : SizeRotatingFileHandler :=
  { fh := { name := "h", off := false, filePath := "f", fileFd := some 0, log := some (some 0) },
    fileCount := 0, fileSize := 100, nextSuffix := 1,
    running := false, rotatingRun := false, rotatingInterval := 0 }

/-- C5 counterexample: immediately after a construction with fileCount = 0
the claimed invariant nextSuffix ∈ [0, fileCount) is false: nextSuffix is 1
while the stored fileCount is 0, so the interval [0, 0) is empty and cannot
contain it. -/
theorem c5_counterexample :
    NewSizeRotatingFileHandler "h" "f" 0 100 emptyDir = Outcome.ok c5s ∧
    c5s.fileCount = 0 ∧ c5s.nextSuffix = 1 ∧
    ¬(c5s.nextSuffix < c5s.fileCount) := by decide

/-- C5 amended: for every construction with fileCount nonzero, nextSuffix
lies in [0, stored fileCount) and is 0 exactly for the disabled
configurations (fileCount negative or 1); and every rotation step taken
from a state with stored fileCount at least 2 and nextSuffix in range keeps
nextSuffix in range.  (With fileCount = 0 the invariant fails at
construction, and a rotation step from a disabled state, reachable through
Run or Close, leaves the range as well.) -/
theorem c5_next_suffix_invariant (name filePath : String) (fileCount fileSize : Int)
    (dir : Int → StatResult) (s : SizeRotatingFileHandler)
    (hfc : fileCount ≠ 0)
    (hs : NewSizeRotatingFileHandler name filePath fileCount fileSize dir = Outcome.ok s) :
    (0 ≤ s.nextSuffix ∧ s.nextSuffix < s.fileCount ∧
      (s.nextSuffix = 0 ↔ fileCount < 0 ∨ fileCount = 1)) ∧
    (∀ (t t2 : SizeRotatingFileHandler) (w : World) (acts : List Action),
      2 ≤ t.fileCount → 0 ≤ t.nextSuffix → t.nextSuffix < t.fileCount →
      t.rotateOnce w = Outcome.ok (t2, acts) →
      0 ≤ t2.nextSuffix ∧ t2.nextSuffix < t2.fileCount) := by
  constructor
  · by_cases hdis : fileCount < 0 ∨ fileCount = 1
    · rw [new_disabled name filePath fileCount fileSize dir hdis] at hs
      have hse := Outcome.ok.inj hs
      have hns : s.nextSuffix = 0 := by
        rw [← hse, initState_nextSuffix, if_pos hdis]
      have hcnt : s.fileCount = 1 := by
        rw [← hse, initState_fileCount, if_pos hdis]
      rw [hns, hcnt]
      exact ⟨le_refl 0, by omega, by simp [hdis]⟩
    · have hfc2 : 2 ≤ fileCount := by omega
      obtain ⟨r, hscan, hnsr, hfcs, _⟩ :=
        new_enabled name filePath fileCount fileSize dir s hfc2 hs
      have hbnd : 1 ≤ r ∧ r < fileCount := by
        rcases scanSlots_ok_mem dir (slotRange fileCount) 0 1 r hscan with h | h
        · omega
        · exact mem_slotRange.mp h
      rw [hnsr, hfcs]
      exact ⟨by omega, by omega, by constructor <;> intro h2 <;> omega⟩
  · intro t t2 w acts hfc2 h0 h1 hrot
    cases hw : w.statResult with
    | ok sz mtt =>
      by_cases hsz : sz ≥ t.fileSize
      · cases hlog : t.fh.log with
        | none =>
          rw [rotateOnce_nilSink t w sz mtt hw hsz hlog] at hrot
          exact Outcome.noConfusion hrot
        | some sink =>
          rw [rotateOnce_rotates t w sz mtt sink hw hsz hlog] at hrot
          obtain ⟨he, _⟩ := Prod.mk.inj (Outcome.ok.inj hrot)
          rw [← he]
          simp only [rotatedState, nextSuffixStep]
          split_ifs with h <;> constructor <;> omega
      · rw [rotateOnce_skips t w sz mtt hw (by omega)] at hrot
        obtain ⟨he, _⟩ := Prod.mk.inj (Outcome.ok.inj hrot)
        rw [← he]
        exact ⟨h0, h1⟩
    | notExist =>
      cases hlog : t.fh.log with
      | none =>
        rw [rotateOnce_statFail_noSink t w (by rw [hw]; rfl) hlog] at hrot
        obtain ⟨he, _⟩ := Prod.mk.inj (Outcome.ok.inj hrot)
        rw [← he]
        exact ⟨h0, h1⟩
      | some sink =>
        rw [rotateOnce_statFail_sink t w sink (by rw [hw]; rfl) hlog] at hrot
        exact Outcome.noConfusion hrot
    | otherError =>
      cases hlog : t.fh.log with
      | none =>
        rw [rotateOnce_statFail_noSink t w (by rw [hw]; rfl) hlog] at hrot
        obtain ⟨he, _⟩ := Prod.mk.inj (Outcome.ok.inj hrot)
        rw [← he]
        exact ⟨h0, h1⟩
      | some sink =>
        rw [rotateOnce_statFail_sink t w sink (by rw [hw]; rfl) hlog] at hrot
        exact Outcome.noConfusion hrot

/-- The state built by constructing over an empty directory with
fileCount 3: the scan finds slot 1 absent and keeps it. -/
def c5wS : SizeRotatingFileHandler :=
  { fh := { name := "h", off := false, filePath := "f", fileFd := some 0, log := some (some 0) },
    fileCount := 3, fileSize := 100, nextSuffix := 1,
    running := false, rotatingRun := false, rotatingInterval := 0 }

/-- C5 witness: the amended statement at fileCount 3 over an empty
directory, and one rotation step from hBase. -/
theorem c5_witness :
    NewSizeRotatingFileHandler "h" "f" 3 100 emptyDir = Outcome.ok c5wS ∧
    (0 ≤ c5wS.nextSuffix ∧ c5wS.nextSuffix < c5wS.fileCount ∧
      (c5wS.nextSuffix = 0 ↔ (3:Int) < 0 ∨ (3:Int) = 1)) ∧
    (0 ≤ (rotatedState hBase wHigh).nextSuffix ∧
      (rotatedState hBase wHigh).nextSuffix < (rotatedState hBase wHigh).fileCount) := by
  have h := c5_next_suffix_invariant "h" "f" 3 100 emptyDir c5wS (by decide) (by decide)
  refine ⟨by decide, h.1, ?_⟩
  exact h.2 hBase (rotatedState hBase wHigh) wHigh (rotatedActs hBase)
    (by decide) (by decide) (by decide)
    (rotateOnce_rotates hBase wHigh 150 7 (some 0) rfl (by decide) rfl)

/-- After a normally returning Close, the sink is nil, the path is empty
and the rotation state is zeroed. -/
theorem close_fields (s t : SizeRotatingFileHandler) (w : World) (acts : List Action)
    (hc : s.Close w = Outcome.ok (t, acts)) :
    t.fh.log = none ∧ t.fh.filePath = "" ∧ t.nextSuffix = 0 ∧ t.fileCount = 0 := by
  unfold SizeRotatingFileHandler.Close at hc
  cases hro : s.rotateOnce w with
  | ok pair =>
    obtain ⟨s1, a1⟩ := pair
    rw [hro] at hc
    simp only [FileHandler.Close] at hc
    obtain ⟨he, _⟩ := Prod.mk.inj (Outcome.ok.inj hc)
    rw [← he]
    exact ⟨rfl, rfl, rfl, rfl⟩
  | deadlock =>
    rw [hro] at hc
    exact Outcome.noConfusion hc
  | crash =>
    rw [hro] at hc
    exact Outcome.noConfusion hc

/-- C8: after a Close that returned normally, a further Log call returns
without performing any file-system action and leaves the state unchanged,
and a further Run call (whose stat of the now-empty path fails, so the
hypothesis states the stat does not succeed) returns normally instead of
crashing; likewise a closed plain FileHandler logs nothing and its Run is a
no-op. -/
theorem c8_closed_handler_safe (s t : SizeRotatingFileHandler) (wc w : World)
    (acts : List Action)
    (hc : s.Close wc = Outcome.ok (t, acts))
    (hstat : isOkB w.statResult = false) :
    t.Log w = Outcome.ok (t, []) ∧
    t.Run w = Outcome.ok ({ t with running := true }, [Action.statF t.fh.filePath]) ∧
    (∀ f : FileHandler, ((f.Close).1).Log = [] ∧
      FileHandler.Run (f.Close).1 = ((f.Close).1, [])) := by
  obtain ⟨hlog, hpath, hns, hfcz⟩ := close_fields s t wc acts hc
  refine ⟨?_, ?_, ?_⟩
  · simp only [SizeRotatingFileHandler.Log, hlog]
  · exact rotateOnce_statFail_noSink { t with running := true } w hstat hlog
  · intro f
    constructor
    · simp [FileHandler.Close, FileHandler.Log]
    · rfl

/-- hBase after Close under a stat of size 50 (below the threshold, so the
final rotation check does nothing). -/
def c8closed : SizeRotatingFileHandler :=
  { fh := { name := "", off := true, filePath := "", fileFd := some 0, log := none },
    fileCount := 0, fileSize := 0, nextSuffix := 0,
    running := false, rotatingRun := false, rotatingInterval := 100 }

/-- C8 witness: closing hBase and then calling Log and Run on the closed
handler. -/
theorem c8_witness :
    SizeRotatingFileHandler.Close hBase wLow =
      Outcome.ok (c8closed, [Action.statF "f", Action.closeF 0]) ∧
    isOkB wStatFail.statResult = false ∧
    SizeRotatingFileHandler.Log c8closed wStatFail = Outcome.ok (c8closed, []) ∧
    SizeRotatingFileHandler.Run c8closed wStatFail =
      Outcome.ok ({ c8closed with running := true }, [Action.statF ""]) := by
  have h := c8_closed_handler_safe hBase c8closed wLow wStatFail
    [Action.statF "f", Action.closeF 0] (by decide) (by decide)
  exact ⟨by decide, by decide, h.1, h.2.1⟩

/-- C9: on an enabled construction (fileCount at least 2), if the backup
scan reaches a slot whose stat fails with an error that is not not-exist
(no earlier slot was absent, which would have ended the scan), the code
dereferences the nil file info and NewSizeRotatingFileHandler crashes
instead of returning an error; when no scanned slot stats with such an
error the construction does not crash. -/
theorem c9_scan_error_crashes (name filePath : String) (fileCount fileSize : Int)
    (dir : Int → StatResult)
    (hfc : 2 ≤ fileCount) :
    ((∀ n ∈ slotRange fileCount, dir n ≠ StatResult.notExist) →
      (∃ n ∈ slotRange fileCount, dir n = StatResult.otherError) →
      NewSizeRotatingFileHandler name filePath fileCount fileSize dir = Outcome.crash) ∧
    ((∀ n ∈ slotRange fileCount, dir n ≠ StatResult.otherError) →
      NewSizeRotatingFileHandler name filePath fileCount fileSize dir ≠ Outcome.crash) := by
  have hcond : ¬(fileCount < 0 ∨ fileCount = 1) := by omega
  constructor
  · intro hpres habs
    unfold NewSizeRotatingFileHandler checkNextSuffix
    rw [if_neg (by rw [initState_nextSuffix, if_neg hcond]; omega)]
    rw [initState_fileCount, if_neg hcond, initState_nextSuffix, if_neg hcond]
    rw [scanSlots_err dir (slotRange fileCount) 0 1 hpres habs]
  · intro hclean
    unfold NewSizeRotatingFileHandler checkNextSuffix
    rw [if_neg (by rw [initState_nextSuffix, if_neg hcond]; omega)]
    rw [initState_fileCount, if_neg hcond, initState_nextSuffix, if_neg hcond]
    obtain ⟨r, hr⟩ := scanSlots_ok_of_clean dir (slotRange fileCount) 0 1 hclean
    rw [hr]
    simp

/-- A directory whose slot 1 exists and whose other slots stat with a hard
error. -/
def c9bad : Int → StatResult :=
  fun n => if n = 1 then StatResult.ok 0 5 else StatResult.otherError

/-- A directory whose slot 1 exists and whose other slots are absent. -/
def c9good : Int → StatResult :=
  fun n => if n = 1 then StatResult.ok 0 5 else StatResult.notExist

/-- C9 witness: at fileCount 3 the scan crashes on the hard error at slot 2
and does not crash when every slot is present or absent. -/
theorem c9_witness :
    NewSizeRotatingFileHandler "h" "f" 3 100 c9bad = Outcome.crash ∧
    NewSizeRotatingFileHandler "h" "f" 3 100 c9good ≠ Outcome.crash :=
  ⟨(c9_scan_error_crashes "h" "f" 3 100 c9bad (by decide)).1 (by decide) (by decide),
   (c9_scan_error_crashes "h" "f" 3 100 c9good (by decide)).2 (by decide)⟩

/-- A directory whose slot 1 has modification time exactly 0 and whose
slot 2 has modification time 100; other slots are absent. -/
def c2dirZero : Int → StatResult :=
  fun n => if n = 1 then StatResult.ok 0 0 else
    if n = 2 then StatResult.ok 0 100 else StatResult.notExist

/-- C2 counterexample: at fileCount 3 both slots of [1, 3) exist and slot 1
is strictly older (modification time 0 against 100), so the claim requires
the initial nextSuffix to be 1; the code computes 2, because minModTime 0
doubles as the unset sentinel and a backup whose modification time is
exactly 0 is forgotten when the next populated slot is scanned. -/
theorem c2_counterexample :
    nsOf (NewSizeRotatingFileHandler "h" "f" 3 100 c2dirZero) = 2 ∧
    c2dirZero 1 = StatResult.ok 0 0 ∧ c2dirZero 2 = StatResult.ok 0 100 ∧
    mtOf (c2dirZero 1) < mtOf (c2dirZero 2) := by decide

/-- C2 amended: on an enabled construction over a directory in which no
scanned slot stats with a hard error and every existing backup has a
nonzero modification time, the initial nextSuffix is a slot of [1,
fileCount); when some slot in that range is absent the chosen slot is an
absent one, and when every slot is populated the chosen slot carries the
smallest modification time among them.  (A backup with modification time
exactly 0 defeats the minimum, as the counterexample shows.) -/
theorem c2_initial_suffix (name filePath : String) (fileCount fileSize : Int)
    (dir : Int → StatResult) (s : SizeRotatingFileHandler)
    (hfc : 2 ≤ fileCount)
    (hclean : ∀ n ∈ slotRange fileCount, dir n ≠ StatResult.otherError)
    (hnz : ∀ n ∈ slotRange fileCount, okNonzeroMT (dir n) = true)
    (hs : NewSizeRotatingFileHandler name filePath fileCount fileSize dir = Outcome.ok s) :
    s.nextSuffix ∈ slotRange fileCount ∧
    ((∃ n ∈ slotRange fileCount, dir n = StatResult.notExist) →
      dir s.nextSuffix = StatResult.notExist) ∧
    ((∀ n ∈ slotRange fileCount, dir n ≠ StatResult.notExist) →
      ∀ n ∈ slotRange fileCount, mtOf (dir s.nextSuffix) ≤ mtOf (dir n)) := by
  obtain ⟨r, hscan, hnsr, hfcs, _⟩ :=
    new_enabled name filePath fileCount fileSize dir s hfc hs
  have hone : (1 : Int) ∈ slotRange fileCount := mem_slotRange.mpr ⟨le_refl 1, by omega⟩
  refine ⟨?_, ?_, ?_⟩
  · rcases scanSlots_ok_mem dir (slotRange fileCount) 0 1 r hscan with h | h
    · rw [hnsr, h]
      exact hone
    · rw [hnsr]
      exact h
  · intro habs
    rw [hnsr]
    exact scanSlots_absent dir (slotRange fileCount) 0 1 r hclean habs hscan
  · intro hpres
    have hall : ∀ x ∈ slotRange fileCount, isOkB (dir x) = true ∧ mtOf (dir x) ≠ 0 := by
      intro x hx
      have h1 := hclean x hx
      have h2 := hpres x hx
      have h3 := hnz x hx
      cases hdx : dir x with
      | ok sz mt =>
        rw [hdx] at h3
        simp only [okNonzeroMT, bne_iff_ne] at h3
        exact ⟨rfl, h3⟩
      | notExist => exact absurd hdx h2
      | otherError => exact absurd hdx h1
    have hne : slotRange fileCount ≠ [] := by
      intro hemp
      rw [hemp] at hone
      simp at hone
    obtain ⟨hmem, hbnd⟩ := scanSlots_min0 dir (slotRange fileCount) 1 r hne hall hscan
    rw [hnsr]
    exact hbnd

/-- The directory of the C2 scenario: slot 1 with modification time 5,
slot 2 older with modification time 3. -/
def c2dirW : Int → StatResult :=
  fun n => if n = 1 then StatResult.ok 0 5 else
    if n = 2 then StatResult.ok 0 3 else StatResult.notExist

/-- The state built by constructing over c2dirW with fileCount 3: the scan
picks the older slot 2. -/
def c2wS : SizeRotatingFileHandler :=
  { fh := { name := "h", off := false, filePath := "f", fileFd := some 0, log := some (some 0) },
    fileCount := 3, fileSize := 100, nextSuffix := 2,
    running := false, rotatingRun := false, rotatingInterval := 0 }

/-- C2 witness: the amended statement on the spec scenario (slot 1 with
modification time 5, slot 2 with modification time 3 — the older), where
the initial nextSuffix is 2. -/
theorem c2_witness :
    NewSizeRotatingFileHandler "h" "f" 3 100 c2dirW = Outcome.ok c2wS ∧
    c2wS.nextSuffix ∈ slotRange 3 ∧
    mtOf (c2dirW c2wS.nextSuffix) ≤ mtOf (c2dirW 1) ∧
    mtOf (c2dirW c2wS.nextSuffix) ≤ mtOf (c2dirW 2) ∧
    c2wS.nextSuffix = 2 := by
  have h := c2_initial_suffix "h" "f" 3 100 c2dirW c2wS
    (by decide) (by decide) (by decide) (by decide)
  refine ⟨by decide, h.1, ?_, ?_, by decide⟩
  · exact h.2.2 (by decide) 1 (by decide)
  · exact h.2.2 (by decide) 2 (by decide)

end Logging
